import Mathlib

/-!
Verification of the evaluation-epoch orchestrator
(`pytorch_lightning/trainer/evaluation_loop.py`): a shallow embedding of the
batch-iteration engine, the epoch reducer, the metrics publisher and the
evaluation run controller, with theorems settling the spec's claims.

Modelling conventions:
* tensors are exact rationals (a 0-dim scalar or a 1-dim vector);
* Python dicts of metrics are association lists with insert-or-overwrite
  update (`dict.update` semantics, first occurrence is the binding);
* dynamically typed Python values flowing through the reducer are a tagged
  union `PyVal`;
* operations that can raise (`IndexError` on `epoch_output[0]`,
  `AttributeError` on a wrong-variant value) return `Option`, `none`
  standing for the raised exception.
-/

set_option autoImplicit false

/-- A torch tensor as used by this loop: either a 0-dim scalar or a 1-dim
vector of exact rational values. -/
inductive Tensor where
  | scalar (v : ℚ)
  | vec (vs : List ℚ)
deriving DecidableEq, Repr

/-- `Tensor.mean`: `torch.Tensor.mean()` reduces a vector to the scalar mean
over its entries; a 0-dim scalar means to itself. -/
def Tensor.mean : Tensor → Tensor
  | .scalar v => .scalar v
  | .vec vs => .scalar (vs.sum / (vs.length : ℚ))

/-- The per-batch values held by a tensor slot, for stacking across batches. -/
def Tensor.toVals : Tensor → List ℚ
  | .scalar v => [v]
  | .vec vs => vs

/-- A flat Python dict mapping metric names to tensors
(`callback_metrics`, `epoch_pbar_metrics`, ... and the trainer's shared
`callback_metrics` store). -/
abbrev MetricMap := List (String × Tensor)

/-- Set one key of a dict: overwrite the existing binding when present,
append a new binding otherwise (Python `d[k] = v`). -/
def MetricMap.setKey (m : MetricMap) (k : String) (v : Tensor) : MetricMap :=
  if m.any (fun kv => kv.1 = k) then
    m.map (fun kv => if kv.1 = k then (k, v) else kv)
  else
    m ++ [(k, v)]

/-- Python `dst.update(src)`: every binding of `src` is set in `dst`,
overwriting on key collision, keeping other bindings of `dst`. -/
def MetricMap.update (dst src : MetricMap) : MetricMap :=
  src.foldl (fun acc kv => MetricMap.setKey acc kv.1 kv.2) dst

/-- First binding of a key in a dict (Python `d[k]` / `k in d`). -/
def MetricMap.find (m : MetricMap) (k : String) : Option Tensor :=
  match m with
  | [] => none
  | kv :: rest => if kv.1 = k then some kv.2 else MetricMap.find rest k

/-- The Structured-variant step/epoch result (`EvalResult`): three metric
views plus the two reserved monitorable slots `checkpoint_on` and
`early_stop_on` (`none` models the key being absent, the source's
`'checkpoint_on' in result` test). -/
structure EvalResult where
  pbarMetrics : MetricMap
  logMetrics : MetricMap
  callbackMetrics : MetricMap
  checkpoint_on : Option Tensor
  early_stop_on : Option Tensor
deriving DecidableEq, Repr

/-- A dynamically typed Python value as it flows through the reducer and
publisher: a tensor, a (possibly nested) dict, a Structured-variant result,
or a list. -/
inductive PyVal where
  | tensor (t : Tensor)
  | dict (m : List (String × PyVal))
  | evalRes (r : EvalResult)
  | list (xs : List PyVal)
deriving Repr

/-- Extract the Structured-variant result carried by a value; `none` models
the `AttributeError`/`TypeError` raised when a legacy value reaches a
Structured-only operation. -/
def PyVal.asEvalRes : PyVal → Option EvalResult
  | .evalRes r => some r
  | _ => none

/-- Modelled from the spec: `flatten_dict` (from `pytorch_lightning.utilities`,
not under src/) flattens nested-mapping structure into a flat mapping, nested
keys joined with a dot (e.g. `a.b`); tensor leaves are kept, other values are
dropped. -/
def flatten_dict : List (String × PyVal) → MetricMap
  | [] => []
  | (k, v) :: rest =>
    (match v with
     | .tensor t => [(k, t)]
     | .dict sub => (flatten_dict sub).map (fun kv => (k ++ "." ++ kv.1, kv.2))
     | _ => []) ++ flatten_dict rest

/-- `__update_callback_metrics` (callback-metric sync): given the shared
store and the epoch results, produce the new store.  In the
Structured-variant branch (`using_eval_result`) the store is *assigned*
`eval_result.callback_metrics` (for a list, once per element, so the last
element's view ends up as the whole store); in the legacy branch a flat dict
is derived (a bare tensor is bound under `val_loss`, a dict is flattened)
and `dict.update`-merged into the store.  `none` models the
`AttributeError` raised when a value of the wrong variant is reached. -/
def update_callback_metrics (store : MetricMap) (eval_results : PyVal)
    (using_eval_result : Bool) : Option MetricMap :=
  if using_eval_result then
    match eval_results with
    | .list rs =>
      rs.foldlM (fun _st r => (PyVal.asEvalRes r).map EvalResult.callbackMetrics) store
    | r => (PyVal.asEvalRes r).map EvalResult.callbackMetrics
  else
    match eval_results with
    | .list rs =>
      rs.foldlM (fun st r =>
        match r with
        | .tensor t => some (MetricMap.update st [("val_loss", t)])
        | .dict d => some (MetricMap.update st (flatten_dict d))
        | _ => none) store
    | .tensor t => some (MetricMap.update store [("val_loss", t)])
    | .dict d => some (MetricMap.update store (flatten_dict d))
    | _ => none

/-- The per-batch hooks invoked by the batch iteration engine inside
`_evaluate`, in source order: `on_evaluation_batch_start`,
`evaluation_step`, `evaluation_step_end`, `on_evaluation_batch_end`,
`evaluation_batch_end_cleanup`, `log_metrics`. -/
inductive Hook where
  | batchStart
  | evalStep
  | stepEnd
  | batchEnd
  | cleanup
  | logStep
deriving DecidableEq, Repr

/-- The hook events recorded for one processed (non-null, within-limit)
batch at enumerate index `idx`. -/
def hooksAt (idx : Nat) : List (Hook × Nat) :=
  [(Hook.batchStart, idx), (Hook.evalStep, idx), (Hook.stepEnd, idx),
   (Hook.batchEnd, idx), (Hook.cleanup, idx), (Hook.logStep, idx)]

/-- The inner loop of `_evaluate` over one dataloader:
`for batch_idx, batch in enumerate(dataloader)`.  A batch is
`Option batchTy` (`none` is a null batch: `if batch is None: continue`);
`idx` is the running enumerate counter; `dlMax` the source's
`dl_max_batches` (`if batch_idx >= dl_max_batches: break`); `step` the
composite `evaluation_step` / `evaluation_step_end` computation whose
output may be `none` (`if output is not None: dl_outputs.append(output)`).
Returns the collected `dl_outputs` together with the trace of per-batch
hook events. -/
def evalSourceTrace {β γ : Type} (step : Nat → β → Option γ) (dlMax : Nat) :
    List (Option β) → Nat → List γ × List (Hook × Nat)
  | [], _ => ([], [])
  | none :: rest, idx => evalSourceTrace step dlMax rest (idx + 1)
  | some b :: rest, idx =>
    if dlMax ≤ idx then ([], [])
    else
      let out := step idx b
      let tail := evalSourceTrace step dlMax rest (idx + 1)
      (match out with
       | some o => o :: tail.1
       | none => tail.1,
       hooksAt idx ++ tail.2)

/-- The outer loop of `_evaluate` over `enumerate(dataloaders)` zipped with
their per-source limits (`self.evaluation_loop.max_batches[dataloader_idx]`:
one limit per dataloader); `dlIdx` is the running dataloader index fed to
the step computation. -/
def evalSources {β γ : Type} (step : Nat → Nat → β → Option γ) (dlIdx : Nat) :
    List (List (Option β) × Nat) → List (List γ)
  | [] => []
  | (dl, m) :: rest =>
    (evalSourceTrace (step dlIdx) m dl 0).1 :: evalSources step (dlIdx + 1) rest

/-- The batch iteration engine of `_evaluate`: per-source output lists
(`self.evaluation_loop.outputs`), one entry per dataloader. -/
def evalAllSources {β γ : Type} (step : Nat → Nat → β → Option γ)
    (dataloaders : List (List (Option β))) (maxBatches : List Nat) : List (List γ) :=
  evalSources step 0 (dataloaders.zip maxBatches)

/-- Map a fallible function over a list, failing when any element fails
(Python: the exception raised mid-loop propagates). -/
def mapOpt {α β : Type} (f : α → Option β) : List α → Option (List β)
  | [] => some []
  | a :: as =>
    match f a with
    | none => none
    | some b => (mapOpt f as).map (fun bs => b :: bs)

/-- Stack the present reserved-slot tensors of a list of results into one
1-dim vector of their per-batch values; `none` when no result carries the
slot. -/
def stackSlot (ts : List (Option Tensor)) : Option Tensor :=
  let vals := ts.flatMap (fun t => match t with | some t => t.toVals | none => [])
  if vals.isEmpty then none else some (.vec vals)

/-- Modelled from the spec: `EvalResult.gather` (class-level, from
`pytorch_lightning/core/step_result.py`, not under src/) — cross-process
concatenation/combination of per-process Structured-variant results into a
single instance of the same shape: the three metric views are merged in
order (later overwrites earlier) and the two reserved slots are stacked
into per-batch vectors. -/
def EvalResult.gather (rs : List EvalResult) : EvalResult :=
  { pbarMetrics := rs.foldl (fun acc r => MetricMap.update acc r.pbarMetrics) []
    logMetrics := rs.foldl (fun acc r => MetricMap.update acc r.logMetrics) []
    callbackMetrics := rs.foldl (fun acc r => MetricMap.update acc r.callbackMetrics) []
    checkpoint_on := stackSlot (rs.map EvalResult.checkpoint_on)
    early_stop_on := stackSlot (rs.map EvalResult.early_stop_on) }

/-- Modelled from the spec: `EvalResult.reduce_on_epoch_end` (class-level,
from `pytorch_lightning/core/step_result.py`, not under src/) — local
reduction of a source's per-batch Structured-variant outputs into a single
instance of the same shape; views merged in order, reserved slots stacked
into per-batch vectors (which the caller then means). -/
def EvalResult.reduce_on_epoch_end (rs : List EvalResult) : EvalResult :=
  { pbarMetrics := rs.foldl (fun acc r => MetricMap.update acc r.pbarMetrics) []
    logMetrics := rs.foldl (fun acc r => MetricMap.update acc r.logMetrics) []
    callbackMetrics := rs.foldl (fun acc r => MetricMap.update acc r.callbackMetrics) []
    checkpoint_on := stackSlot (rs.map EvalResult.checkpoint_on)
    early_stop_on := stackSlot (rs.map EvalResult.early_stop_on) }

/-- The reserved-slot post-processing appearing verbatim in both
`__gather_epoch_end_eval_results` and `__auto_reduce_result_objs`:
`if 'checkpoint_on' in result: result.checkpoint_on = result.checkpoint_on.mean()`
and likewise for `early_stop_on`. -/
def meanReservedSlots (r : EvalResult) : EvalResult :=
  let r1 := match r.checkpoint_on with
    | some t => { r with checkpoint_on := some t.mean }
    | none => r
  match r1.early_stop_on with
  | some t => { r1 with early_stop_on := some t.mean }
  | none => r1

/-- `__gather_epoch_end_eval_results`: for each source's output list, take
`epoch_output[0].__class__.gather(epoch_output)` (`none` models the
`IndexError` on an empty list and the attribute failure on legacy
elements), mean the reserved slots, and collapse the per-source list to its
single element when there is exactly one source. -/
def gather_epoch_end_eval_results (outputs : List (List PyVal)) : Option PyVal :=
  (mapOpt (fun epoch_output =>
      match epoch_output.head? with
      | none => none
      | some _ =>
        (mapOpt PyVal.asEvalRes epoch_output).map
          (fun ers => meanReservedSlots (EvalResult.gather ers)))
    outputs).map
    (fun eval_results =>
      match eval_results with
      | [r] => .evalRes r
      | rs => .list (rs.map PyVal.evalRes))

/-- `__auto_reduce_result_objs`: for each source's output list, take
`dl_output[0]` (`none` models the `IndexError` on an empty list), reduce
via the class-level `reduce_on_epoch_end`, and mean the reserved slots;
one reduced result per source. -/
def auto_reduce_result_objs (outputs : List (List PyVal)) : Option (List PyVal) :=
  mapOpt (fun dl_output =>
      match dl_output.head? with
      | none => none
      | some _ =>
        (mapOpt PyVal.asEvalRes dl_output).map
          (fun ers => .evalRes (meanReservedSlots (EvalResult.reduce_on_epoch_end ers))))
    outputs

/-- The user model as seen by the reducer: each optional hook is `some f`
exactly when `self.is_overridden(name, model=model)` holds, `f` being the
user's hook body. -/
structure Model where
  test_end : Option (PyVal → PyVal)
  test_epoch_end : Option (PyVal → PyVal)
  validation_end : Option (PyVal → PyVal)
  validation_epoch_end : Option (PyVal → PyVal)

/-- The deprecation warning emitted when the legacy `test_end` hook is used
(`rank_zero_warn(..., DeprecationWarning)`). -/
def testEndDeprecationMsg : String :=
  "Method `test_end` was deprecated in v0.7 and will be removed in v1.0. Use `test_epoch_end` instead."

/-- The deprecation warning emitted when the legacy `validation_end` hook
is used. -/
def validationEndDeprecationMsg : String :=
  "Method `validation_end` was deprecated in v0.7 and will be removed in v1.0. Use `validation_epoch_end` instead."

/-- The initial `eval_results` of `__run_eval_epoch_end`: the raw outputs,
collapsed to `outputs[0]` when there is exactly one dataloader (`none`
models the `IndexError` of `outputs[0]` on an empty list, unreachable from
`_evaluate` where `outputs` has one entry per dataloader). -/
def initEvalResults (outputs : List (List PyVal)) (nDataloaders : Nat) : Option PyVal :=
  if nDataloaders = 1 then
    (outputs.head?).map PyVal.list
  else
    some (.list (outputs.map PyVal.list))

/-- The final normalization of `__run_eval_epoch_end`:
`if not isinstance(eval_results, list): eval_results = [eval_results]`. -/
def wrapNonList (v : PyVal) : PyVal :=
  match v with
  | .list xs => .list xs
  | v => .list [v]

/-- `__run_eval_epoch_end`: strict-priority epoch reduction.  Returns the
normalized epoch results together with the deprecation warnings emitted
(`rank_zero_warn` calls); `none` models an exception escaping the
reduction (empty per-source list reaching `gather`/`reduce`, or a
wrong-variant value).  `nDataloaders` is `len(dataloaders)` (the
`dataloaders` argument is used only for its length). -/
def run_eval_epoch_end (m : Model) (test_mode : Bool)
    (outputs : List (List PyVal)) (nDataloaders : Nat) (using_eval_result : Bool) :
    Option (PyVal × List String) := do
  let init ← initEvalResults outputs nDataloaders
  -- (eval_results, user_reduced, warnings) after the hook-dispatch block
  let afterHooks : Option (PyVal × Bool × List String) :=
    if test_mode then
      match m.test_end with
      | some f => do
        let pre ← if using_eval_result then gather_epoch_end_eval_results outputs
                  else some init
        some (f pre, true, [testEndDeprecationMsg])
      | none =>
        match m.test_epoch_end with
        | some f => do
          let pre ← if using_eval_result then gather_epoch_end_eval_results outputs
                    else some init
          some (f pre, true, [])
        | none => some (init, false, [])
    else
      match m.validation_end with
      | some f => do
        let pre ← if using_eval_result then gather_epoch_end_eval_results outputs
                  else some init
        some (f pre, true, [validationEndDeprecationMsg])
      | none =>
        match m.validation_epoch_end with
        | some f => do
          let pre ← if using_eval_result then gather_epoch_end_eval_results outputs
                    else some init
          some (f pre, true, [])
        | none => some (init, false, [])
  let (eval_results, user_reduced, warns) ← afterHooks
  let eval_results ←
    if using_eval_result && !user_reduced then
      (auto_reduce_result_objs outputs).map PyVal.list
    else
      some eval_results
  some (wrapNonList eval_results, warns)

/-- The three metric views used for one entry of the epoch-result list in
`__log_evaluation_epoch_metrics`: for a Structured-variant result its own
views, with the callback view replaced by the empty dict in test mode
("in testing we don't need the callback metrics"); for a legacy result the
views derived by the external output-processing collaborator
(`self.process_output`, passed in as `processOutput`). -/
def epochViewsFor (processOutput : PyVal → MetricMap × MetricMap × MetricMap)
    (test_mode : Bool) (result : PyVal) : MetricMap × MetricMap × MetricMap :=
  match result with
  | .evalRes r =>
    (r.pbarMetrics, r.logMetrics, if test_mode then [] else r.callbackMetrics)
  | other => processOutput other

/-- The per-entry loop of `__log_evaluation_epoch_metrics`: merges the
three views into one reporting dict (`{**prog_bar, **log, **callback}`),
updates the shared store with the callback view, and appends the reporting
dict to `eval_loop_results` only when non-empty. -/
def logEvalEntries (processOutput : PyVal → MetricMap × MetricMap × MetricMap)
    (test_mode : Bool) (store : MetricMap) :
    List PyVal → List MetricMap × MetricMap
  | [] => ([], store)
  | result :: rest =>
    let views := epochViewsFor processOutput test_mode result
    let dataloader_result_metrics :=
      MetricMap.update (MetricMap.update views.1 views.2.1) views.2.2
    let store2 := MetricMap.update store views.2.2
    let tail := logEvalEntries processOutput test_mode store2 rest
    (if dataloader_result_metrics.isEmpty then tail.1
     else dataloader_result_metrics :: tail.1,
     tail.2)

/-- `__log_evaluation_epoch_metrics`: given the epoch results, produce
`eval_loop_results` (the reporting list) and the shared store after the
per-entry `self.callback_metrics.update(callback_metrics)` calls.  A
non-list value is wrapped (`eval_results = [eval_results]`); an empty list
fails the `len(eval_results) > 0` guard and short-circuits (callers always
pass the reducer's normalized list, so the guard's `len` on a non-list is
not modelled separately). -/
def log_evaluation_epoch_metrics
    (processOutput : PyVal → MetricMap × MetricMap × MetricMap)
    (store : MetricMap) (eval_results : PyVal) (test_mode : Bool) :
    List MetricMap × MetricMap :=
  match eval_results with
  | .list [] => ([], store)
  | .list xs => logEvalEntries processOutput test_mode store xs
  | v => logEvalEntries processOutput test_mode store [v]

/-- `_evaluate`: run the batch iteration engine over all dataloaders, run
the epoch reducer, then the callback-metric sync.  Returns the epoch
results, the updated shared store, and the deprecation warnings emitted. -/
def _evaluate {β : Type} (model : Model) (using_eval_result : Bool)
    (step : Bool → Nat → Nat → β → Option PyVal) (store : MetricMap)
    (dataloaders : List (List (Option β))) (max_batches : List Nat)
    (test_mode : Bool) : Option (PyVal × MetricMap × List String) :=
  let outputs := evalAllSources (step test_mode) dataloaders max_batches
  match run_eval_epoch_end model test_mode outputs dataloaders.length using_eval_result with
  | none => none
  | some (eval_results, warns) =>
    (update_callback_metrics store eval_results using_eval_result).map
      (fun store2 => (eval_results, store2, warns))

/-- The components of `run_evaluation` that execute on the non-skipped
path: the batch iteration engine, the epoch reducer, the callback-metric
sync, and the epoch-level metric emission (publisher). -/
inductive Phase where
  | engine
  | reducer
  | callbackSync
  | publisher
deriving DecidableEq, Repr

/-- The trainer state consumed by `run_evaluation`, over an opaque batch
type `β`.  `usingEvalResult` is the value of
`self.evaluation_loop.is_using_eval_results()` (from
`trainer/evaluate_loop.py`, not under src/; per the spec it detects whether
Structured-variant outputs are active); `step` is the composite
`evaluation_step`/`evaluation_step_end` computation (same file), taking the
mode flag, the dataloader index, the batch index and the batch;
`provisionVal`/`provisionTest` are the dataloaders and batch limits
produced by the `reset_val_dataloader`/`reset_test_dataloader`
provisioning collaborator; `processOutput` is the legacy output-processing
collaborator restricted to its three metric views. -/
structure Trainer (β : Type) where
  model : Model
  usingEvalResult : Bool
  step : Bool → Nat → Nat → β → Option PyVal
  valDataloaders : Option (List (List (Option β)))
  numValBatches : List Nat
  provisionVal : Option (List (List (Option β))) × List Nat
  provisionTest : Option (List (List (Option β))) × List Nat
  callbackMetrics : MetricMap
  processOutput : PyVal → MetricMap × MetricMap × MetricMap

/-- The observable outcome of one `run_evaluation` call: the pair it
returns (`eval_loop_results`, `eval_results`), the shared store afterwards,
the deprecation warnings emitted, and which components ran. -/
structure RunOutcome where
  loopResults : List MetricMap
  evalResults : PyVal
  store : MetricMap
  warnings : List String
  phases : List Phase
deriving Repr

/-- `run_evaluation`: select the dataloaders and limits for the mode (test
always re-provisions; validation provisions only when
`self.val_dataloaders is None`), return `([], [])` when the dataloaders
are `None` or when `sum(max_batches) == 0`, otherwise run `_evaluate` and
the epoch-level metric emission and return
`(eval_loop_results, eval_results)`. -/
def run_evaluation {β : Type} (t : Trainer β) (test_mode : Bool) : Option RunOutcome :=
  let selected :=
    if test_mode then t.provisionTest
    else
      match t.valDataloaders with
      | some dls => (some dls, t.numValBatches)
      | none => t.provisionVal
  match selected.1 with
  | none => some ⟨[], .list [], t.callbackMetrics, [], []⟩
  | some dataloaders =>
    if selected.2.sum = 0 then
      some ⟨[], .list [], t.callbackMetrics, [], []⟩
    else
      match _evaluate t.model t.usingEvalResult t.step t.callbackMetrics
          dataloaders selected.2 test_mode with
      | none => none
      | some (eval_results, store2, warns) =>
        let pub := log_evaluation_epoch_metrics t.processOutput store2 eval_results test_mode
        some ⟨pub.1, eval_results, pub.2, warns,
          [Phase.engine, Phase.reducer, Phase.callbackSync, Phase.publisher]⟩

/-! ## Engine lemmas -/

theorem evalSourceTrace_outputs_le {β γ : Type} (step : Nat → β → Option γ) (m : Nat) :
    ∀ (bs : List (Option β)) (idx : Nat),
      (evalSourceTrace step m bs idx).1.length ≤ m - idx := by
  intro bs
  induction bs with
  | nil => intro idx; simp [evalSourceTrace]
  | cons b rest ih =>
    intro idx
    match b with
    | none =>
      have := ih (idx + 1)
      simp only [evalSourceTrace]
      omega
    | some b0 =>
      simp only [evalSourceTrace]
      split
      · simp
      · have := ih (idx + 1)
        cases hstep : step idx b0 <;> simp [hstep] <;> omega

theorem evalSources_getD_le {β γ : Type} (step : Nat → Nat → β → Option γ) :
    ∀ (pairs : List (List (Option β) × Nat)) (dlIdx i : Nat),
      ((evalSources step dlIdx pairs).getD i []).length ≤ (pairs.map Prod.snd).getD i 0 := by
  intro pairs
  induction pairs with
  | nil => intro dlIdx i; simp [evalSources]
  | cons p rest ih =>
    intro dlIdx i
    obtain ⟨dl, m⟩ := p
    cases i with
    | zero =>
      simpa [evalSources] using evalSourceTrace_outputs_le (step dlIdx) m dl 0
    | succ n =>
      simpa [evalSources] using ih (dlIdx + 1) n

/-- C5: for every list of data sources and matching batch-limit vector, the
batch iteration engine records at most `M[i]` step outputs for source `i`,
and zero outputs for a source whose limit is `0`. -/
theorem c5_engine_respects_limits {β γ : Type} (step : Nat → Nat → β → Option γ)
    (dataloaders : List (List (Option β))) (M : List Nat)
    (h : dataloaders.length = M.length) (i : Nat) :
    ((evalAllSources step dataloaders M).getD i []).length ≤ M.getD i 0 ∧
    (M.getD i 0 = 0 → (evalAllSources step dataloaders M).getD i [] = []) := by
  have hzip : (dataloaders.zip M).map Prod.snd = M :=
    List.map_snd_zip dataloaders M (le_of_eq h.symm)
  have key : ((evalAllSources step dataloaders M).getD i []).length ≤ M.getD i 0 := by
    have := evalSources_getD_le step (dataloaders.zip M) 0 i
    rwa [hzip] at this
  refine ⟨key, fun h0 => ?_⟩
  rw [h0] at key
  exact List.length_eq_zero.mp (Nat.le_zero.mp key)

/-- C5 witness. -/
theorem c5_engine_respects_limits_witness :
    ((evalAllSources (fun _ bi (_ : Unit) => some bi)
        [[some (), some (), some ()], [some ()]] [2, 0]).getD 0 []).length ≤ 2 ∧
    ((evalAllSources (fun _ bi (_ : Unit) => some bi)
        [[some (), some (), some ()], [some ()]] [2, 0]).getD 1 []).length ≤ 0 := by
  refine ⟨?_, ?_⟩
  · simpa using (c5_engine_respects_limits (fun _ bi (_ : Unit) => some bi)
      [[some (), some (), some ()], [some ()]] [2, 0] (by simp) 0).1
  · simpa using (c5_engine_respects_limits (fun _ bi (_ : Unit) => some bi)
      [[some (), some (), some ()], [some ()]] [2, 0] (by simp) 1).1

theorem evalSourceTrace_events {β γ : Type} (step : Nat → β → Option γ) (m : Nat) :
    ∀ (bs : List (Option β)) (idx : Nat) (hk : Hook) (j : Nat),
      (hk, j) ∈ (evalSourceTrace step m bs idx).2 →
      idx ≤ j ∧ ∃ b, bs[j - idx]? = some (some b) := by
  intro bs
  induction bs with
  | nil => intro idx hk j h; simp [evalSourceTrace] at h
  | cons b rest ih =>
    intro idx hk j h
    match b with
    | none =>
      simp only [evalSourceTrace] at h
      obtain ⟨hle, b1, hb1⟩ := ih (idx + 1) hk j h
      refine ⟨by omega, b1, ?_⟩
      rw [show j - idx = (j - (idx + 1)) + 1 by omega]
      simpa using hb1
    | some b0 =>
      simp only [evalSourceTrace] at h
      split at h
      · simp at h
      · simp only [hooksAt, List.mem_append, List.mem_cons, List.not_mem_nil,
          or_false, Prod.mk.injEq] at h
        rcases h with (⟨_, rfl⟩ | ⟨_, rfl⟩ | ⟨_, rfl⟩ | ⟨_, rfl⟩ | ⟨_, rfl⟩ | ⟨_, rfl⟩) | h
        · exact ⟨le_refl _, b0, by simp⟩
        · exact ⟨le_refl _, b0, by simp⟩
        · exact ⟨le_refl _, b0, by simp⟩
        · exact ⟨le_refl _, b0, by simp⟩
        · exact ⟨le_refl _, b0, by simp⟩
        · exact ⟨le_refl _, b0, by simp⟩
        · obtain ⟨hle, b1, hb1⟩ := ih (idx + 1) hk j h
          refine ⟨by omega, b1, ?_⟩
          rw [show j - idx = (j - (idx + 1)) + 1 by omega]
          simpa using hb1

/-- C8: a null batch invokes none of the per-batch hooks, adds nothing to
the source's output list, and does not terminate iteration.  Part 1: the
engine on `none :: rest` produces exactly the outputs and hook events of
`rest` with the enumerate counter advanced (no hook, no output, iteration
continues).  Part 2: every recorded hook event points at a non-null batch
position. -/
theorem c8_null_batch_skipped :
    (∀ (β γ : Type) (step : Nat → β → Option γ) (m : Nat)
        (rest : List (Option β)) (idx : Nat),
      evalSourceTrace step m (none :: rest) idx = evalSourceTrace step m rest (idx + 1)) ∧
    (∀ (β γ : Type) (step : Nat → β → Option γ) (m : Nat)
        (bs : List (Option β)) (hk : Hook) (j : Nat),
      (hk, j) ∈ (evalSourceTrace step m bs 0).2 → bs[j]? ≠ some none) := by
  constructor
  · intro β γ step m rest idx
    simp [evalSourceTrace]
  · intro β γ step m bs hk j h
    obtain ⟨-, b1, hb1⟩ := evalSourceTrace_events step m bs 0 hk j h
    simp only [Nat.sub_zero] at hb1
    simp [hb1]

/-- C8 witness: null-batch skip on a concrete source, and a concrete hook
event whose position is a non-null batch. -/
theorem c8_null_batch_skipped_witness :
    evalSourceTrace (fun _ (b : Nat) => some b) 3 [none, some 5] 0
      = evalSourceTrace (fun _ (b : Nat) => some b) 3 [some 5] 1 ∧
    ([some 5] : List (Option Nat))[0]? ≠ some none := by
  refine ⟨c8_null_batch_skipped.1 Nat Nat (fun _ b => some b) 3 [some 5] 0, ?_⟩
  exact c8_null_batch_skipped.2 Nat Nat (fun _ b => some b) 3 [some 5] Hook.batchStart 0
    (by decide)

/-! ## Reducer failure lemmas -/

theorem mapOpt_eq_none_of_mem {α β : Type} (f : α → Option β) :
    ∀ (as : List α) (a : α), a ∈ as → f a = none → mapOpt f as = none := by
  intro as
  induction as with
  | nil => intro a ha; simp at ha
  | cons x rest ih =>
    intro a ha hfa
    rcases List.mem_cons.mp ha with rfl | hmem
    · simp [mapOpt, hfa]
    · simp only [mapOpt]
      cases hfx : f x
      · rfl
      · simp [ih a hmem hfa]

theorem mapOpt_isSome_of_forall {α β : Type} (f : α → Option β) :
    ∀ (as : List α), (∀ a ∈ as, (f a).isSome) → (mapOpt f as).isSome := by
  intro as
  induction as with
  | nil => intro _; simp [mapOpt]
  | cons x rest ih =>
    intro hall
    have hx := hall x (List.mem_cons_self x rest)
    obtain ⟨b, hb⟩ := Option.isSome_iff_exists.mp hx
    have hr := ih (fun a ha => hall a (List.mem_cons_of_mem x ha))
    obtain ⟨bs, hbs⟩ := Option.isSome_iff_exists.mp hr
    simp [mapOpt, hb, hbs]

/-- C10: both Structured-variant reduction paths read the first element of
each per-source output list, so an empty output list for any source makes
gather preprocessing and auto-reduce fail (the modelled `IndexError`),
while every source being non-empty (and Structured) makes both succeed:
non-emptiness of every per-source output list is a precondition of
Structured-variant reduction. -/
theorem c10_empty_source_breaks_reduction :
    (∀ outputs : List (List PyVal), [] ∈ outputs →
      gather_epoch_end_eval_results outputs = none ∧
      auto_reduce_result_objs outputs = none) ∧
    (∀ outputs : List (List PyVal),
      (∀ dl ∈ outputs, dl ≠ [] ∧ ∀ x ∈ dl, ∃ er, x = PyVal.evalRes er) →
      (gather_epoch_end_eval_results outputs).isSome ∧
      (auto_reduce_result_objs outputs).isSome) := by
  constructor
  · intro outputs hmem
    constructor
    · have : mapOpt (fun epoch_output =>
          match epoch_output.head? with
          | none => none
          | some _ =>
            (mapOpt PyVal.asEvalRes epoch_output).map
              (fun ers => meanReservedSlots (EvalResult.gather ers))) outputs = none :=
        mapOpt_eq_none_of_mem _ outputs [] hmem rfl
      simp [gather_epoch_end_eval_results, this]
    · exact mapOpt_eq_none_of_mem _ outputs [] hmem rfl
  · intro outputs hall
    have hper : ∀ dl ∈ outputs,
        ((fun (dl_output : List PyVal) =>
          match dl_output.head? with
          | none => none
          | some _ =>
            (mapOpt PyVal.asEvalRes dl_output).map
              (fun ers => meanReservedSlots (EvalResult.gather ers))) dl).isSome := by
      intro dl hdl
      obtain ⟨hne, hst⟩ := hall dl hdl
      obtain ⟨x, rest, rfl⟩ := List.exists_cons_of_ne_nil hne
      have hsome : (mapOpt PyVal.asEvalRes (x :: rest)).isSome := by
        apply mapOpt_isSome_of_forall
        intro a ha
        obtain ⟨er, rfl⟩ := hst a ha
        simp [PyVal.asEvalRes]
      obtain ⟨ers, hers⟩ := Option.isSome_iff_exists.mp hsome
      simp [List.head?, hers]
    have hper2 : ∀ dl ∈ outputs,
        ((fun (dl_output : List PyVal) =>
          match dl_output.head? with
          | none => none
          | some _ =>
            (mapOpt PyVal.asEvalRes dl_output).map
              (fun ers => PyVal.evalRes
                (meanReservedSlots (EvalResult.reduce_on_epoch_end ers)))) dl).isSome := by
      intro dl hdl
      obtain ⟨hne, hst⟩ := hall dl hdl
      obtain ⟨x, rest, rfl⟩ := List.exists_cons_of_ne_nil hne
      have hsome : (mapOpt PyVal.asEvalRes (x :: rest)).isSome := by
        apply mapOpt_isSome_of_forall
        intro a ha
        obtain ⟨er, rfl⟩ := hst a ha
        simp [PyVal.asEvalRes]
      obtain ⟨ers, hers⟩ := Option.isSome_iff_exists.mp hsome
      simp [List.head?, hers]
    constructor
    · have := mapOpt_isSome_of_forall _ outputs hper
      obtain ⟨v, hv⟩ := Option.isSome_iff_exists.mp this
      simp [gather_epoch_end_eval_results, hv]
    · exact mapOpt_isSome_of_forall _ outputs hper2

/-- C10 witness: a concrete second source with an empty output list breaks
both reduction paths; with both sources non-empty both succeed. -/
theorem c10_empty_source_breaks_reduction_witness :
    (gather_epoch_end_eval_results [[PyVal.evalRes ⟨[], [], [], none, none⟩], []] = none ∧
     auto_reduce_result_objs [[PyVal.evalRes ⟨[], [], [], none, none⟩], []] = none) ∧
    ((gather_epoch_end_eval_results [[PyVal.evalRes ⟨[], [], [], none, none⟩]]).isSome ∧
     (auto_reduce_result_objs [[PyVal.evalRes ⟨[], [], [], none, none⟩]]).isSome) := by
  constructor
  · exact c10_empty_source_breaks_reduction.1
      [[PyVal.evalRes ⟨[], [], [], none, none⟩], []] (by simp)
  · refine c10_empty_source_breaks_reduction.2
      [[PyVal.evalRes ⟨[], [], [], none, none⟩]] ?_
    intro dl hdl
    simp only [List.mem_singleton] at hdl
    subst hdl
    refine ⟨by simp, ?_⟩
    intro x hx
    simp only [List.mem_singleton] at hx
    exact ⟨_, hx⟩

/-! ## Run controller short-circuit -/

/-- C7: when no data sources exist for the selected mode, or when the sum
of the per-source batch limits is zero, `run_evaluation` returns the pair
of two empty results as a normal return, with the shared store untouched,
no warnings, and none of the engine / reducer / callback-sync / publisher
components invoked (empty phase trace).  Test mode always re-provisions its
sources; validation provisions only when none are materialized. -/
theorem c7_skip_returns_empty {β : Type} (t : Trainer β) :
    (t.provisionTest.1 = none →
      run_evaluation t true = some ⟨[], .list [], t.callbackMetrics, [], []⟩) ∧
    (∀ dls, t.provisionTest.1 = some dls → t.provisionTest.2.sum = 0 →
      run_evaluation t true = some ⟨[], .list [], t.callbackMetrics, [], []⟩) ∧
    (t.valDataloaders = none → t.provisionVal.1 = none →
      run_evaluation t false = some ⟨[], .list [], t.callbackMetrics, [], []⟩) ∧
    (∀ dls, t.valDataloaders = none → t.provisionVal.1 = some dls →
      t.provisionVal.2.sum = 0 →
      run_evaluation t false = some ⟨[], .list [], t.callbackMetrics, [], []⟩) ∧
    (∀ dls, t.valDataloaders = some dls → t.numValBatches.sum = 0 →
      run_evaluation t false = some ⟨[], .list [], t.callbackMetrics, [], []⟩) := by
  refine ⟨?_, ?_, ?_, ?_, ?_⟩
  · intro h
    simp [run_evaluation, h]
  · intro dls h hsum
    simp [run_evaluation, h, hsum]
  · intro hval h
    simp [run_evaluation, hval, h]
  · intro dls hval h hsum
    simp [run_evaluation, hval, h, hsum]
  · intro dls hval hsum
    simp [run_evaluation, hval, hsum]

/-- C7 witness: concrete trainers exercising each skip case. -/
theorem c7_skip_returns_empty_witness :
    run_evaluation
      (⟨⟨none, none, none, none⟩, false, fun _ _ _ _ => none, none, [],
        (none, []), (none, []), [("k", Tensor.scalar 7)], fun _ => ([], [], [])⟩ :
        Trainer Unit) true
      = some ⟨[], .list [], [("k", Tensor.scalar 7)], [], []⟩ ∧
    run_evaluation
      (⟨⟨none, none, none, none⟩, false, fun _ _ _ _ => none, none, [],
        (none, []), (some [[some ()]], [0, 0]), [], fun _ => ([], [], [])⟩ :
        Trainer Unit) true
      = some ⟨[], .list [], [], [], []⟩ ∧
    run_evaluation
      (⟨⟨none, none, none, none⟩, false, fun _ _ _ _ => none,
        some [[some ()]], [0], (none, []), (none, []), [], fun _ => ([], [], [])⟩ :
        Trainer Unit) false
      = some ⟨[], .list [], [], [], []⟩ := by
  refine ⟨?_, ?_, ?_⟩
  · exact (c7_skip_returns_empty _).1 rfl
  · exact (c7_skip_returns_empty _).2.1 [[some ()]] rfl rfl
  · exact (c7_skip_returns_empty _).2.2.2.2 [[some ()]] rfl rfl

/-! ## Callback-store lemmas -/

theorem keys_setKey (m : MetricMap) (k : String) (v : Tensor) (q : String) :
    q ∈ (MetricMap.setKey m k v).map Prod.fst ↔ q ∈ m.map Prod.fst ∨ q = k := by
  unfold MetricMap.setKey
  split
  · rename_i hany
    have hkeys : (m.map (fun kv => if kv.1 = k then (k, v) else kv)).map Prod.fst
        = m.map Prod.fst := by
      rw [List.map_map]
      apply List.map_congr_left
      intro kv _
      by_cases hkv : kv.1 = k
      · simp [hkv]
      · simp [hkv]
    rw [hkeys]
    have hmem : k ∈ m.map Prod.fst := by
      obtain ⟨kv, hkv, hq⟩ := List.any_eq_true.mp hany
      simp only [decide_eq_true_eq] at hq
      exact hq ▸ List.mem_map_of_mem Prod.fst hkv
    constructor
    · exact Or.inl
    · rintro (h | rfl)
      · exact h
      · exact hmem
  · simp

theorem keys_update (src : List (String × Tensor)) :
    ∀ (dst : MetricMap) (q : String),
      q ∈ (MetricMap.update dst src).map Prod.fst ↔
        q ∈ dst.map Prod.fst ∨ q ∈ src.map Prod.fst := by
  induction src with
  | nil => intro dst q; simp [MetricMap.update]
  | cons kv rest ih =>
    intro dst q
    have hstep : MetricMap.update dst (kv :: rest)
        = MetricMap.update (MetricMap.setKey dst kv.1 kv.2) rest := rfl
    rw [hstep, ih, keys_setKey]
    simp only [List.map_cons, List.mem_cons]
    tauto

/-- C1 counterexample: two sequential Structured-variant evaluation runs
with disjoint metric-name sets.  After the second run the shared store is
exactly the second run's `callback_metrics` — the first run's key `a` is
gone, refuting "always merges and never replaces wholesale in both
branches". -/
theorem c1_counterexample :
    (update_callback_metrics []
        (.list [.evalRes ⟨[], [], [("a", Tensor.scalar 1)], none, none⟩]) true).bind
      (fun s => update_callback_metrics s
        (.list [.evalRes ⟨[], [], [("b", Tensor.scalar 2)], none, none⟩]) true)
      = some [("b", Tensor.scalar 2)] ∧
    MetricMap.find [("b", Tensor.scalar 2)] "a" = none := by
  constructor
  · rfl
  · rfl

/-- C1 amended: the callback-metric sync merges (append/overwrite) only in
the legacy branch — keys published by either of two sequential legacy runs
persist in the store — while the Structured-variant branch wholesale
replaces the store with the (last) epoch result's `callback_metrics`. -/
theorem c1_amended (store : MetricMap) (d1 d2 : List (String × PyVal))
    (er1 er2 : EvalResult) (s1 s2 : MetricMap) (k : String)
    (h1 : update_callback_metrics store (.list [.dict d1]) false = some s1)
    (h2 : update_callback_metrics s1 (.list [.dict d2]) false = some s2)
    (hk : k ∈ (flatten_dict d1).map Prod.fst ∨ k ∈ (flatten_dict d2).map Prod.fst) :
    k ∈ s2.map Prod.fst ∧
    (update_callback_metrics store (.list [.evalRes er1]) true).bind
      (fun s => update_callback_metrics s (.list [.evalRes er2]) true)
      = some er2.callbackMetrics := by
  have e1 : update_callback_metrics store (.list [.dict d1]) false
      = some (MetricMap.update store (flatten_dict d1)) := rfl
  have e2 : update_callback_metrics s1 (.list [.dict d2]) false
      = some (MetricMap.update s1 (flatten_dict d2)) := rfl
  rw [e1] at h1
  rw [e2] at h2
  obtain rfl := Option.some.inj h1
  obtain rfl := Option.some.inj h2
  constructor
  · rw [keys_update, keys_update]
    tauto
  · rfl

/-- C1 witness: concrete sequential legacy runs with disjoint keys keep the
first run's key, while the Structured branch ends as the second result's
view. -/
theorem c1_amended_witness :
    "a" ∈ (MetricMap.update (MetricMap.update []
        (flatten_dict [("a", .tensor (Tensor.scalar 1))]))
        (flatten_dict [("b", .tensor (Tensor.scalar 2))])).map Prod.fst ∧
    (update_callback_metrics []
        (.list [.evalRes ⟨[], [], [("a", Tensor.scalar 1)], none, none⟩]) true).bind
      (fun s => update_callback_metrics s
        (.list [.evalRes ⟨[], [], [("b", Tensor.scalar 2)], none, none⟩]) true)
      = some (⟨[], [], [("b", Tensor.scalar 2)], none, none⟩ : EvalResult).callbackMetrics :=
  c1_amended [] [("a", .tensor (Tensor.scalar 1))] [("b", .tensor (Tensor.scalar 2))]
    ⟨[], [], [("a", Tensor.scalar 1)], none, none⟩
    ⟨[], [], [("b", Tensor.scalar 2)], none, none⟩
    _ _ "a" rfl rfl (Or.inl (by simp [flatten_dict]))

/-! ## Test-mode callback suppression -/

/-- C4 counterexample: in test mode a *legacy* epoch result still merges
the callback metrics derived by the output-processing collaborator into
the shared store — the epoch-level metric emission changes the store, so
suppression does not hold "for both Structured-variant and legacy epoch
results". -/
theorem c4_counterexample :
    (log_evaluation_epoch_metrics (fun _ => ([], [], [("val_loss", Tensor.scalar 1)]))
        [] (.list [.dict []]) true).2 = [("val_loss", Tensor.scalar 1)] ∧
    [("val_loss", Tensor.scalar 1)] ≠ ([] : MetricMap) := by
  constructor
  · rfl
  · simp

theorem logEvalEntries_store_structured_test
    (processOutput : PyVal → MetricMap × MetricMap × MetricMap) :
    ∀ (xs : List PyVal) (store : MetricMap),
      (∀ x ∈ xs, ∃ er, x = PyVal.evalRes er) →
      (logEvalEntries processOutput true store xs).2 = store := by
  intro xs
  induction xs with
  | nil => intro store _; rfl
  | cons x rest ih =>
    intro store hall
    obtain ⟨er, rfl⟩ := hall x (List.mem_cons_self x rest)
    have htail := ih store (fun y hy => hall y (List.mem_cons_of_mem _ hy))
    simpa [logEvalEntries, epochViewsFor, MetricMap.update] using htail

/-- C4 amended: in test mode the epoch-level metric emission adds no
callback metrics for Structured-variant (`EvalResult`) entries — their
callback view is replaced by the empty dict — so a test run over purely
Structured epoch results leaves the shared store unchanged; legacy entries
are exempt from the suppression (see the counterexample). -/
theorem c4_amended (processOutput : PyVal → MetricMap × MetricMap × MetricMap)
    (store : MetricMap) (xs : List PyVal)
    (hall : ∀ x ∈ xs, ∃ er, x = PyVal.evalRes er) :
    (log_evaluation_epoch_metrics processOutput store (.list xs) true).2 = store := by
  match xs, hall with
  | [], _ => rfl
  | x :: rest, hall =>
    simpa [log_evaluation_epoch_metrics] using
      logEvalEntries_store_structured_test processOutput (x :: rest) store hall

/-- C4 witness: a concrete all-Structured test-mode emission leaves a
concrete store unchanged. -/
theorem c4_amended_witness :
    (log_evaluation_epoch_metrics (fun _ => ([], [], []))
        [("keep", Tensor.scalar 3)]
        (.list [.evalRes ⟨[("p", Tensor.scalar 1)], [("l", Tensor.scalar 2)],
          [("c", Tensor.scalar 4)], none, none⟩]) true).2
      = [("keep", Tensor.scalar 3)] :=
  c4_amended (fun _ => ([], [], [])) [("keep", Tensor.scalar 3)]
    [.evalRes ⟨[("p", Tensor.scalar 1)], [("l", Tensor.scalar 2)],
      [("c", Tensor.scalar 4)], none, none⟩]
    (by intro x hx; simp only [List.mem_singleton] at hx; exact ⟨_, hx⟩)

/-! ## Reporting-list shape -/

/-- A trainer with exactly one validation data source whose Structured
step outputs carry no metrics at all (all views empty, no reserved slots),
no user epoch-end hooks, Structured-variant active. -/
def emptyViewsTrainer : Trainer Unit :=
  { model := ⟨none, none, none, none⟩
    usingEvalResult := true
    step := fun _ _ _ _ => some (.evalRes ⟨[], [], [], none, none⟩)
    valDataloaders := some [[some ()]]
    numValBatches := [1]
    provisionVal := (none, [])
    provisionTest := (none, [])
    callbackMetrics := []
    processOutput := fun _ => ([], [], []) }

/-- C9 counterexample: a completed (non-skipped) evaluation run over one
data source whose epoch result carries an empty merged metric mapping —
the reporting list returned by `run_evaluation` has zero entries, not
exactly one per data source (`if len(dataloader_result_metrics) > 0`
drops empty mappings). -/
theorem c9_counterexample :
    (run_evaluation emptyViewsTrainer false).map (fun o => o.loopResults.length)
      = some 0 ∧ (0 : Nat) ≠ 1 := by
  constructor
  · rfl
  · simp

/-- The merged reporting mapping built for one epoch-result entry:
`{**prog_bar_metrics, **log_metrics, **callback_metrics}`. -/
def reportingMetricsFor (processOutput : PyVal → MetricMap × MetricMap × MetricMap)
    (test_mode : Bool) (result : PyVal) : MetricMap :=
  let views := epochViewsFor processOutput test_mode result
  MetricMap.update (MetricMap.update views.1 views.2.1) views.2.2

theorem logEvalEntries_fst (processOutput : PyVal → MetricMap × MetricMap × MetricMap)
    (test_mode : Bool) :
    ∀ (xs : List PyVal) (store : MetricMap),
      (logEvalEntries processOutput test_mode store xs).1
        = (xs.map (reportingMetricsFor processOutput test_mode)).filter
            (fun m => !m.isEmpty) := by
  intro xs
  induction xs with
  | nil => intro store; rfl
  | cons x rest ih =>
    intro store
    simp only [logEvalEntries, List.map_cons, List.filter_cons]
    by_cases hm : (reportingMetricsFor processOutput test_mode x).isEmpty
    · simp [reportingMetricsFor, hm, ih]
    · simp [reportingMetricsFor, hm, ih]

/-- C9 amended: the reporting list contains one flat metric mapping per
epoch-result entry *whose merged mapping is non-empty*, in entry order;
entries with an empty merged mapping are dropped, so a completed run can
return fewer mappings than data sources (and with legacy unreduced
outputs, entries need not correspond one-to-one to sources at all). -/
theorem c9_amended (processOutput : PyVal → MetricMap × MetricMap × MetricMap)
    (store : MetricMap) (xs : List PyVal) (test_mode : Bool) :
    (log_evaluation_epoch_metrics processOutput store (.list xs) test_mode).1
      = (xs.map (reportingMetricsFor processOutput test_mode)).filter
          (fun m => !m.isEmpty) := by
  match xs with
  | [] => rfl
  | x :: rest =>
    simpa [log_evaluation_epoch_metrics] using
      logEvalEntries_fst processOutput test_mode (x :: rest) store

/-! ## Reduction priority -/

/-- C3: epoch reduction tries strategies in strict priority order and stops
at the first applicable one.  Parts (in order): with the legacy `test_end`
overridden it is used — even when `test_epoch_end` is also overridden — and
the deprecation warning is emitted; else `test_epoch_end` is used with no
warning; the validation mirror of both; with no user hook and
Structured-variant active, the auto-reduce path runs; with no user hook and
legacy outputs, the raw per-source lists pass through unchanged (up to the
final list normalization); and each deprecation message names the
replacement hook. -/
theorem c3_reduction_priority :
    (∀ (uer : Bool) (f : PyVal → PyVal) (tee ve vee : Option (PyVal → PyVal))
        (outputs : List (List PyVal)) (nDl : Nat) (pre0 pre : PyVal),
      initEvalResults outputs nDl = some pre0 →
      (if uer then gather_epoch_end_eval_results outputs else some pre0) = some pre →
      run_eval_epoch_end ⟨some f, tee, ve, vee⟩ true outputs nDl uer
        = some (wrapNonList (f pre), [testEndDeprecationMsg])) ∧
    (∀ (uer : Bool) (f : PyVal → PyVal) (ve vee : Option (PyVal → PyVal))
        (outputs : List (List PyVal)) (nDl : Nat) (pre0 pre : PyVal),
      initEvalResults outputs nDl = some pre0 →
      (if uer then gather_epoch_end_eval_results outputs else some pre0) = some pre →
      run_eval_epoch_end ⟨none, some f, ve, vee⟩ true outputs nDl uer
        = some (wrapNonList (f pre), [])) ∧
    (∀ (uer : Bool) (f : PyVal → PyVal) (te tee vee : Option (PyVal → PyVal))
        (outputs : List (List PyVal)) (nDl : Nat) (pre0 pre : PyVal),
      initEvalResults outputs nDl = some pre0 →
      (if uer then gather_epoch_end_eval_results outputs else some pre0) = some pre →
      run_eval_epoch_end ⟨te, tee, some f, vee⟩ false outputs nDl uer
        = some (wrapNonList (f pre), [validationEndDeprecationMsg])) ∧
    (∀ (uer : Bool) (f : PyVal → PyVal) (te tee : Option (PyVal → PyVal))
        (outputs : List (List PyVal)) (nDl : Nat) (pre0 pre : PyVal),
      initEvalResults outputs nDl = some pre0 →
      (if uer then gather_epoch_end_eval_results outputs else some pre0) = some pre →
      run_eval_epoch_end ⟨te, tee, none, some f⟩ false outputs nDl uer
        = some (wrapNonList (f pre), [])) ∧
    (∀ (test_mode : Bool) (outputs : List (List PyVal)) (nDl : Nat)
        (pre0 : PyVal) (rs : List PyVal),
      initEvalResults outputs nDl = some pre0 →
      auto_reduce_result_objs outputs = some rs →
      run_eval_epoch_end ⟨none, none, none, none⟩ test_mode outputs nDl true
        = some (.list rs, [])) ∧
    (∀ (test_mode : Bool) (outputs : List (List PyVal)) (nDl : Nat) (pre0 : PyVal),
      initEvalResults outputs nDl = some pre0 →
      run_eval_epoch_end ⟨none, none, none, none⟩ test_mode outputs nDl false
        = some (wrapNonList pre0, [])) ∧
    (∃ s1 s2, testEndDeprecationMsg = s1 ++ "test_epoch_end" ++ s2) ∧
    (∃ s1 s2, validationEndDeprecationMsg = s1 ++ "validation_epoch_end" ++ s2) := by
  refine ⟨?_, ?_, ?_, ?_, ?_, ?_, ?_, ?_⟩
  · intro uer f tee ve vee outputs nDl pre0 pre hi hp
    cases uer <;> simp_all [run_eval_epoch_end]
  · intro uer f ve vee outputs nDl pre0 pre hi hp
    cases uer <;> simp_all [run_eval_epoch_end]
  · intro uer f te tee vee outputs nDl pre0 pre hi hp
    cases te <;> cases tee <;> cases uer <;> simp_all [run_eval_epoch_end]
  · intro uer f te tee outputs nDl pre0 pre hi hp
    cases te <;> cases tee <;> cases uer <;> simp_all [run_eval_epoch_end]
  · intro test_mode outputs nDl pre0 rs hi ha
    cases test_mode <;> simp [run_eval_epoch_end, hi, ha, wrapNonList]
  · intro test_mode outputs nDl pre0 hi
    cases test_mode <;> simp [run_eval_epoch_end, hi]
  · exact ⟨"Method `test_end` was deprecated in v0.7 and will be removed in v1.0. Use `",
      "` instead.", rfl⟩
  · exact ⟨"Method `validation_end` was deprecated in v0.7 and will be removed in v1.0. Use `",
      "` instead.", rfl⟩

/-- C3 witness: concrete dispatches for each priority branch. -/
theorem c3_reduction_priority_witness :
    run_eval_epoch_end ⟨some (fun _ => PyVal.tensor (Tensor.scalar 9)),
        some (fun _ => PyVal.tensor (Tensor.scalar 8)), none, none⟩ true
        [[.tensor (.scalar 1)], [.tensor (.scalar 2)]] 2 false
      = some (wrapNonList (PyVal.tensor (Tensor.scalar 9)), [testEndDeprecationMsg]) ∧
    run_eval_epoch_end ⟨none, some (fun _ => PyVal.tensor (Tensor.scalar 8)), none, none⟩ true
        [[.tensor (.scalar 1)], [.tensor (.scalar 2)]] 2 false
      = some (wrapNonList (PyVal.tensor (Tensor.scalar 8)), []) ∧
    run_eval_epoch_end ⟨none, none, some (fun _ => PyVal.tensor (Tensor.scalar 7)),
        some (fun _ => PyVal.tensor (Tensor.scalar 6))⟩ false
        [[.tensor (.scalar 1)], [.tensor (.scalar 2)]] 2 false
      = some (wrapNonList (PyVal.tensor (Tensor.scalar 7)), [validationEndDeprecationMsg]) ∧
    run_eval_epoch_end ⟨none, none, none, some (fun _ => PyVal.tensor (Tensor.scalar 6))⟩ false
        [[.tensor (.scalar 1)], [.tensor (.scalar 2)]] 2 false
      = some (wrapNonList (PyVal.tensor (Tensor.scalar 6)), []) ∧
    run_eval_epoch_end ⟨none, none, none, none⟩ false
        [[.evalRes ⟨[], [], [], none, none⟩]] 1 true
      = some (.list [.evalRes ⟨[], [], [], none, none⟩], []) ∧
    run_eval_epoch_end ⟨none, none, none, none⟩ true
        [[.tensor (.scalar 1)], [.tensor (.scalar 2)]] 2 false
      = some (wrapNonList (.list [.list [.tensor (.scalar 1)], .list [.tensor (.scalar 2)]]), []) := by
  refine ⟨?_, ?_, ?_, ?_, ?_, ?_⟩
  · exact c3_reduction_priority.1 false (fun _ => PyVal.tensor (Tensor.scalar 9))
      (some (fun _ => PyVal.tensor (Tensor.scalar 8))) none none
      [[.tensor (.scalar 1)], [.tensor (.scalar 2)]] 2
      (.list [.list [.tensor (.scalar 1)], .list [.tensor (.scalar 2)]])
      (.list [.list [.tensor (.scalar 1)], .list [.tensor (.scalar 2)]]) rfl rfl
  · exact c3_reduction_priority.2.1 false (fun _ => PyVal.tensor (Tensor.scalar 8))
      none none [[.tensor (.scalar 1)], [.tensor (.scalar 2)]] 2
      (.list [.list [.tensor (.scalar 1)], .list [.tensor (.scalar 2)]])
      (.list [.list [.tensor (.scalar 1)], .list [.tensor (.scalar 2)]]) rfl rfl
  · exact c3_reduction_priority.2.2.1 false (fun _ => PyVal.tensor (Tensor.scalar 7))
      none none (some (fun _ => PyVal.tensor (Tensor.scalar 6)))
      [[.tensor (.scalar 1)], [.tensor (.scalar 2)]] 2
      (.list [.list [.tensor (.scalar 1)], .list [.tensor (.scalar 2)]])
      (.list [.list [.tensor (.scalar 1)], .list [.tensor (.scalar 2)]]) rfl rfl
  · exact c3_reduction_priority.2.2.2.1 false (fun _ => PyVal.tensor (Tensor.scalar 6))
      none none [[.tensor (.scalar 1)], [.tensor (.scalar 2)]] 2
      (.list [.list [.tensor (.scalar 1)], .list [.tensor (.scalar 2)]])
      (.list [.list [.tensor (.scalar 1)], .list [.tensor (.scalar 2)]]) rfl rfl
  · exact c3_reduction_priority.2.2.2.2.1 false
      [[.evalRes ⟨[], [], [], none, none⟩]] 1
      (.list [.evalRes ⟨[], [], [], none, none⟩])
      [.evalRes ⟨[], [], [], none, none⟩] rfl rfl
  · exact c3_reduction_priority.2.2.2.2.2.1 true
      [[.tensor (.scalar 1)], [.tensor (.scalar 2)]] 2
      (.list [.list [.tensor (.scalar 1)], .list [.tensor (.scalar 2)]]) rfl

/-! ## Reserved-slot reduction -/

/-- The per-batch values collected from a list of reserved-slot entries. -/
def slotVals (ts : List (Option Tensor)) : List ℚ :=
  ts.flatMap (fun t => match t with | some t => t.toVals | none => [])

theorem stackSlot_eq (ts : List (Option Tensor)) :
    stackSlot ts = if (slotVals ts).isEmpty then none else some (.vec (slotVals ts)) := rfl

/-- The expected shape of a reserved slot after epoch reduction: absent, or
a single scalar equal to the mean of the collected per-batch values. -/
def scalarMeanSlot (ts : List (Option Tensor)) : Option Tensor :=
  if (slotVals ts).isEmpty then none
  else some (.scalar ((slotVals ts).sum / ((slotVals ts).length : ℚ)))

theorem meanReservedSlots_checkpoint (r : EvalResult) :
    (meanReservedSlots r).checkpoint_on = r.checkpoint_on.map Tensor.mean := by
  cases hc : r.checkpoint_on <;> cases he : r.early_stop_on <;>
    simp [meanReservedSlots, hc, he]

theorem meanReservedSlots_early_stop (r : EvalResult) :
    (meanReservedSlots r).early_stop_on = r.early_stop_on.map Tensor.mean := by
  cases hc : r.checkpoint_on <;> cases he : r.early_stop_on <;>
    simp [meanReservedSlots, hc, he]

theorem stackSlot_map_mean (ts : List (Option Tensor)) :
    (stackSlot ts).map Tensor.mean = scalarMeanSlot ts := by
  rw [stackSlot_eq]
  by_cases h : (slotVals ts).isEmpty <;> simp [scalarMeanSlot, h, Tensor.mean]

/-- C6: on Structured outputs with `checkpoint_on` values
`[1/2, 3/10, 7/10]` over one source and no user hooks, auto-reduce yields a
single epoch result with `checkpoint_on` the scalar mean `1/2`; and in
general, after auto-reduce and after gather preprocessing, each reserved
slot is either absent or a single scalar equal to the mean of the collected
per-batch values — never a per-batch vector. -/
theorem c6_reserved_slots_scalar_mean :
    auto_reduce_result_objs
        [[.evalRes ⟨[], [], [], some (.scalar (1/2)), none⟩,
          .evalRes ⟨[], [], [], some (.scalar (3/10)), none⟩,
          .evalRes ⟨[], [], [], some (.scalar (7/10)), none⟩]]
      = some [.evalRes ⟨[], [], [], some (.scalar (1/2)), none⟩] ∧
    (∀ ers : List EvalResult,
      (meanReservedSlots (EvalResult.reduce_on_epoch_end ers)).checkpoint_on
        = scalarMeanSlot (ers.map EvalResult.checkpoint_on) ∧
      (meanReservedSlots (EvalResult.reduce_on_epoch_end ers)).early_stop_on
        = scalarMeanSlot (ers.map EvalResult.early_stop_on) ∧
      (meanReservedSlots (EvalResult.gather ers)).checkpoint_on
        = scalarMeanSlot (ers.map EvalResult.checkpoint_on) ∧
      (meanReservedSlots (EvalResult.gather ers)).early_stop_on
        = scalarMeanSlot (ers.map EvalResult.early_stop_on)) := by
  constructor
  · norm_num [auto_reduce_result_objs, mapOpt, EvalResult.reduce_on_epoch_end,
      meanReservedSlots, stackSlot, Tensor.mean, Tensor.toVals, PyVal.asEvalRes,
      MetricMap.update, List.head?, List.flatMap]
  · intro ers
    refine ⟨?_, ?_, ?_, ?_⟩
    · rw [meanReservedSlots_checkpoint]
      exact stackSlot_map_mean (ers.map EvalResult.checkpoint_on)
    · rw [meanReservedSlots_early_stop]
      exact stackSlot_map_mean (ers.map EvalResult.early_stop_on)
    · rw [meanReservedSlots_checkpoint]
      exact stackSlot_map_mean (ers.map EvalResult.checkpoint_on)
    · rw [meanReservedSlots_early_stop]
      exact stackSlot_map_mean (ers.map EvalResult.early_stop_on)

/-! ## Second return component is always the normalized list -/

theorem run_eval_epoch_end_isList (m : Model) (test_mode : Bool)
    (outputs : List (List PyVal)) (nDl : Nat) (uer : Bool)
    (er : PyVal) (ws : List String)
    (h : run_eval_epoch_end m test_mode outputs nDl uer = some (er, ws)) :
    ∃ xs, er = PyVal.list xs := by
  have key : ∀ (o : Option PyVal) (w1 : List String),
      o.bind (fun y => some (wrapNonList y, w1)) = some (er, ws) →
      ∃ xs, er = PyVal.list xs := by
    intro o w1 ho
    rcases Option.bind_eq_some.mp ho with ⟨y, hy, hj⟩
    obtain rfl : wrapNonList y = er := congrArg Prod.fst (Option.some.inj hj)
    cases y <;> exact ⟨_, rfl⟩
  unfold run_eval_epoch_end at h
  rcases Option.bind_eq_some.mp h with ⟨init, hinit, h2⟩
  rcases Option.bind_eq_some.mp h2 with ⟨⟨e1, ur, w⟩, hah, h3⟩
  simp only [] at h3
  split at h3
  · exact key _ _ h3
  · exact key _ _ h3

theorem _evaluate_evalResults_isList {β : Type} (model : Model) (uer : Bool)
    (step : Bool → Nat → Nat → β → Option PyVal) (store : MetricMap)
    (dataloaders : List (List (Option β))) (max_batches : List Nat)
    (test_mode : Bool) (er : PyVal) (st : MetricMap) (ws : List String)
    (h : _evaluate model uer step store dataloaders max_batches test_mode
        = some (er, st, ws)) :
    ∃ xs, er = PyVal.list xs := by
  unfold _evaluate at h
  simp only [] at h
  split at h
  · simp at h
  · rename_i e w hre
    rcases Option.map_eq_some'.mp h with ⟨st2, hst2, heq⟩
    obtain rfl : e = er := congrArg (fun p => p.1) heq
    exact run_eval_epoch_end_isList model test_mode _ _ uer e w hre

/-- A concrete trainer with exactly one validation data source and a user
`validation_epoch_end` hook returning a bare (non-list) tensor. -/
def singleSourceTrainer : Trainer Unit :=
  { model := ⟨none, none, none, some (fun _ => .tensor (Tensor.scalar 1))⟩
    usingEvalResult := false
    step := fun _ _ _ _ => some (.tensor (Tensor.scalar 3))
    valDataloaders := some [[some ()]]
    numValBatches := [1]
    provisionVal := (none, [])
    provisionTest := (none, [])
    callbackMetrics := []
    processOutput := fun _ => ([], [], []) }

/-- C2 counterexample: with exactly one data source and a user epoch-end
hook producing the bare result `tensor 1` internally, `run_evaluation`
returns as its second component the length-1 list wrapping that result,
not the bare result — the controller applies no singleton unwrap. -/
theorem c2_counterexample :
    (run_evaluation singleSourceTrainer false).map RunOutcome.evalResults
      = some (.list [.tensor (Tensor.scalar 1)]) ∧
    PyVal.list [.tensor (Tensor.scalar 1)] ≠ PyVal.tensor (Tensor.scalar 1) := by
  constructor
  · rfl
  · intro h
    exact PyVal.noConfusion h

/-- C2 amended: the second component returned by `run_evaluation` is always
the reducer's normalized *list* (also on the skip paths); a bare non-list
result produced internally is returned wrapped in a length-1 list — the
single-source unwrap is not applied by the run controller. -/
theorem c2_amended :
    (∀ (β : Type) (t : Trainer β) (test_mode : Bool) (out : RunOutcome),
      run_evaluation t test_mode = some out → ∃ xs, out.evalResults = PyVal.list xs) ∧
    (∀ v : PyVal, (∀ xs, v ≠ PyVal.list xs) → wrapNonList v = PyVal.list [v]) := by
  constructor
  · intro β t test_mode out h
    unfold run_evaluation at h
    simp only [] at h
    rcases hsel : (if test_mode = true then t.provisionTest
        else match t.valDataloaders with
          | some dls => (some dls, t.numValBatches)
          | none => t.provisionVal) with ⟨dlsOpt, maxB⟩
    rw [hsel] at h
    cases dlsOpt with
    | none =>
      simp only [] at h
      obtain rfl := Option.some.inj h
      exact ⟨[], rfl⟩
    | some dls =>
      simp only [] at h
      by_cases hs : maxB.sum = 0
      · rw [if_pos hs] at h
        obtain rfl := Option.some.inj h
        exact ⟨[], rfl⟩
      · rw [if_neg hs] at h
        cases hev : _evaluate t.model t.usingEvalResult t.step t.callbackMetrics
            dls maxB test_mode with
        | none => rw [hev] at h; exact absurd h (by simp)
        | some triple =>
          obtain ⟨e, st2, w⟩ := triple
          rw [hev] at h
          obtain rfl := Option.some.inj h
          exact _evaluate_evalResults_isList _ _ _ _ _ _ _ _ _ _ hev
  · intro v hv
    cases v with
    | list xs => exact absurd rfl (hv xs)
    | tensor t => rfl
    | dict d => rfl
    | evalRes r => rfl

/-- C2 witness: the amended statement at the concrete single-source
trainer, and the concrete wrap of a bare non-list value. -/
theorem c2_amended_witness :
    (∃ xs, (⟨[], PyVal.list [.tensor (Tensor.scalar 1)],
        [("val_loss", Tensor.scalar 1)], [],
        [Phase.engine, Phase.reducer, Phase.callbackSync, Phase.publisher]⟩ :
        RunOutcome).evalResults = PyVal.list xs) ∧
    wrapNonList (.dict []) = PyVal.list [.dict []] :=
  ⟨c2_amended.1 Unit singleSourceTrainer false
      ⟨[], PyVal.list [.tensor (Tensor.scalar 1)],
        [("val_loss", Tensor.scalar 1)], [],
        [Phase.engine, Phase.reducer, Phase.callbackSync, Phase.publisher]⟩ rfl,
    c2_amended.2 (.dict []) (fun _xs h => PyVal.noConfusion h)⟩
